import Mathlib

/-!
Verification development for the frontend HTTP client layer
(`src/frontend/src/lib/api.ts`) and the authentication session hook
(`src/frontend/src/hooks/useAuth.ts`, `src/frontend/src/lib/auth.ts`).

The TypeScript code is shallowly embedded: JSON bodies become an inductive
`Json` type, JavaScript exceptions become an inductive `JsError`, the
`fetch` outcomes of the attempts of one `request` call become a function
`Nat → FetchOutcome` supplied by the environment, and the retry loop of
`request` becomes the recursive function `loopGo` which records the number
of attempts performed together with the backoff delays awaited between them.
-/

/-- A JSON value, as produced by `response.json()`. -/
inductive Json where
  | null : Json
  | bool : Bool → Json
  | num : Int → Json
  | str : String → Json
  | arr : List Json → Json
  | obj : List (String × Json) → Json
deriving Repr

mutual

/-- `JSON.stringify` on a parsed JSON value (string escaping elided:
the bodies exercised here contain no quotes or backslashes). -/
def jsonStringify : Json → String
  | Json.null => "null"
  | Json.bool true => "true"
  | Json.bool false => "false"
  | Json.num n => toString n
  | Json.str s => "\"" ++ s ++ "\""
  | Json.arr xs => "[" ++ jsonStringifyArr xs ++ "]"
  | Json.obj fs => "\x7b" ++ jsonStringifyObj fs ++ "\x7d"

/-- Comma-separated stringification of the elements of a JSON array. -/
def jsonStringifyArr : List Json → String
  | [] => ""
  | [x] => jsonStringify x
  | x :: xs => jsonStringify x ++ "," ++ jsonStringifyArr xs

/-- Comma-separated stringification of the fields of a JSON object. -/
def jsonStringifyObj : List (String × Json) → String
  | [] => ""
  | [(k, v)] => "\"" ++ k ++ "\":" ++ jsonStringify v
  | (k, v) :: fs => "\"" ++ k ++ "\":" ++ jsonStringify v ++ "," ++ jsonStringifyObj fs

end

/-- `Object.keys(data).length`: own enumerable keys of a JavaScript value.
Objects and arrays count their entries, strings their characters,
primitives have none. -/
def objectKeysLength : Json → Nat
  | Json.obj fs => fs.length
  | Json.arr xs => xs.length
  | Json.str s => s.length
  | _ => 0

/-- JavaScript truthiness of a JSON value. -/
def truthy : Json → Bool
  | Json.null => false
  | Json.bool b => b
  | Json.num n => n != 0
  | Json.str s => s != ""
  | Json.arr _ => true
  | Json.obj _ => true

/-- A JavaScript exception value, restricted to the shapes the pipeline
can throw or receive: `TypeError` (with its message), a plain `Error`
(with its message), the `AbortError` a timed-out `fetch` rejects with,
and a body-parse failure. -/
inductive JsError where
  | typeError : String → JsError
  | error : String → JsError
  | abortError : JsError
  | parseError : String → JsError
deriving Repr, DecidableEq

/-- Property access `data.message` on a JavaScript value: throws a
`TypeError` on `null`, looks up the field on an object, and yields
`undefined` (here `none`) on other values. -/
def jsGet : Json → String → Except JsError (Option Json)
  | Json.null, _ => Except.error (JsError.typeError "Cannot read properties of null")
  | Json.obj fs, k => Except.ok (fs.lookup k)
  | _, _ => Except.ok none

mutual

/-- JavaScript string coercion `String(x)`, as the `Error` constructor
applies to a non-string argument. -/
def jsCoerceString : Json → String
  | Json.null => "null"
  | Json.bool true => "true"
  | Json.bool false => "false"
  | Json.num n => toString n
  | Json.str s => s
  | Json.arr xs => jsCoerceArr xs
  | Json.obj _ => "[object Object]"

/-- `Array.prototype.toString`: elements coerced and joined with commas. -/
def jsCoerceArr : List Json → String
  | [] => ""
  | [x] => jsCoerceString x
  | x :: xs => jsCoerceString x ++ "," ++ jsCoerceArr xs

end

/-- `data.message || 'An error occurred'` followed by the `Error`
constructor's string coercion of the chosen value. -/
def jsOrDefaultMessage : Option Json → String
  | some j => if truthy j then jsCoerceString j else "An error occurred"
  | none => "An error occurred"

/-- The normalized success shape `{ data, status, message }` returned by
`handleResponse` (the `message` field is `data.message`, possibly
`undefined`). -/
structure ApiResponse where
  data : Json
  status : Nat
  message : Option Json
deriving Repr

/-- `Response.ok`: the HTTP status lies in the 2xx range. -/
def responseOk (status : Nat) : Bool :=
  200 ≤ status && status ≤ 299

/-- An HTTP response as `handleResponse` consumes it: the status code and
the outcome of `await response.json()` (a parse failure rejects). -/
structure Response where
  status : Nat
  body : Except JsError Json

/-- `handleResponse` from `api.ts`: parse the body; on a non-2xx status
throw `Error(JSON.stringify(data))` when the body is a truthy value with
own keys, otherwise throw `Error(data.message || 'An error occurred')`;
on a 2xx status return `{ data, status, message: data.message }`.
Reading `data.message` on a `null` body throws a `TypeError`. -/
def handleResponse (r : Response) : Except JsError ApiResponse :=
  match r.body with
  | Except.error e => Except.error e
  | Except.ok data =>
    if !(responseOk r.status) then
      if truthy data && (objectKeysLength data != 0) then
        Except.error (JsError.error (jsonStringify data))
      else
        match jsGet data "message" with
        | Except.error e => Except.error e
        | Except.ok m => Except.error (JsError.error (jsOrDefaultMessage m))
    else
      match jsGet data "message" with
      | Except.error e => Except.error e
      | Except.ok m => Except.ok ⟨data, r.status, m⟩

/-- What one `fetch` attempt does: deliver a response, reject with the
network-unreachable `TypeError('Failed to fetch')`, or reject with an
`AbortError` because the attempt's timeout fired. -/
inductive FetchOutcome where
  | success : Response → FetchOutcome
  | networkFailure : FetchOutcome
  | timeout : FetchOutcome

/-- The result of one attempt of the `request` loop body: the fetch
outcome followed by `handleResponse` (whose throws are caught by the same
`try` block). -/
def attemptResult : FetchOutcome → Except JsError ApiResponse
  | FetchOutcome.success r => handleResponse r
  | FetchOutcome.networkFailure => Except.error (JsError.typeError "Failed to fetch")
  | FetchOutcome.timeout => Except.error JsError.abortError

/-- The guard `error instanceof TypeError && error.message === 'Failed to fetch'`
of the no-retry branch in `request`. -/
def isNetworkTypeError : JsError → Bool
  | JsError.typeError m => m == "Failed to fetch"
  | _ => false

/-- `MAX_RETRIES` from `api.ts`. -/
def MAX_RETRIES : Nat := 3

/-- `RETRY_DELAY` (ms) from `api.ts`. -/
def RETRY_DELAY : Nat := 1000

/-- `REQUEST_TIMEOUT` (ms) from `api.ts`. -/
def REQUEST_TIMEOUT : Nat := 30000

/-- The error `request` substitutes for a network-level fetch failure. -/
def networkSurfacedError : JsError :=
  JsError.error "Network error: Please check your internet connection"

/-- The observable trace of one `request` execution: its outcome, the
number of fetch attempts performed, and the list of backoff delays (ms)
awaited between consecutive attempts. -/
structure RunTrace where
  result : Except JsError ApiResponse
  attempts : Nat
  delays : List Nat
deriving Repr

/-- An attempt outcome that the `request` loop treats as retryable: a
failure other than the network-level `TypeError('Failed to fetch')`. -/
def retryableFail (x : Except JsError ApiResponse) : Bool :=
  match x with
  | Except.ok _ => false
  | Except.error e => !isNetworkTypeError e

/-- The body of the `for (let attempt = 0; attempt <= retries; attempt++)`
loop of `request`, with `left = retries - attempt` attempts remaining
after the current one.  A success returns; a network-level failure throws
the substituted network error at once; otherwise the last attempt
rethrows the failure and an earlier attempt waits
`RETRY_DELAY * (attempt + 1)` and continues. -/
def loopGo (outcomes : Nat → FetchOutcome) : Nat → Nat → RunTrace
  | attempt, left =>
    match attemptResult (outcomes attempt) with
    | Except.ok resp => ⟨Except.ok resp, 1, []⟩
    | Except.error e =>
      if isNetworkTypeError e then
        ⟨Except.error networkSurfacedError, 1, []⟩
      else
        match left with
        | 0 => ⟨Except.error e, 1, []⟩
        | left' + 1 =>
          let rest := loopGo outcomes (attempt + 1) left'
          ⟨rest.result, rest.attempts + 1, RETRY_DELAY * (attempt + 1) :: rest.delays⟩

/-- `request` from `api.ts`, restricted to its retry accounting: run the
attempt loop from attempt 0 with `retries` retries remaining. -/
def request (outcomes : Nat → FetchOutcome) (retries : Nat := MAX_RETRIES) : RunTrace :=
  loopGo outcomes 0 retries

example :
    (request (fun _ => FetchOutcome.timeout)).attempts = 4 := by rfl

example :
    (request (fun _ => FetchOutcome.timeout)).delays = [1000, 2000, 3000] := by rfl

example :
    (request (fun _ => FetchOutcome.networkFailure)).attempts = 1 := by rfl

/-! ## Header construction (lines 55–65 of `api.ts`)

`request` reads `localStorage.getItem('token')` once, builds a plain
object `{'Content-Type': 'application/json', ...(token && {Authorization:
`Bearer ${token}`}), ...fetchOptions.headers}` (object spread: a later
entry with the exact same key overwrites in place), feeds it to the
`Headers` constructor (which appends entry by entry, names compared
case-insensitively and duplicate names combined with `", "`), and for a
`FormData` body deletes the `Content-Type` entry. -/

/-- ASCII lowercasing of one character (header names are ASCII). -/
def charLower (c : Char) : Char :=
  if 65 ≤ c.toNat && c.toNat ≤ 90 then Char.ofNat (c.toNat + 32) else c

/-- ASCII lowercasing of a header name, the normalization the `Headers`
class applies to names. -/
def strLower (s : String) : String := String.mk (s.data.map charLower)

/-- A `Headers` object: association list keyed by lowercased names. -/
def HeadersList : Type := List (String × String)

instance : DecidableEq HeadersList := by
  unfold HeadersList
  infer_instance

/-- Truthiness of the `token` read from storage (`getItem` yields `null`
or a string; the empty string is falsy). -/
def jsTokenTruthy : Option String → Bool
  | some s => s != ""
  | none => false

/-- Overwrite-in-place of one key of a plain object, as object spread
does: replace the value of an exactly matching key, else append. -/
def recUpsert (r : List (String × String)) (k v : String) : List (String × String) :=
  if r.any (fun p => p.1 == k) then
    r.map (fun p => if p.1 == k then (k, v) else p)
  else
    r ++ [(k, v)]

/-- The plain object literal of `request`: content type, then the
conditional Authorization entry, then the caller's header entries. -/
def headersRecord (token : Option String) (callerHeaders : List (String × String)) :
    List (String × String) :=
  let base := [("Content-Type", "application/json")]
  let base :=
    match token with
    | some t => if t != "" then recUpsert base "Authorization" ("Bearer " ++ t) else base
    | none => base
  callerHeaders.foldl (fun r p => recUpsert r p.1 p.2) base

/-- `Headers.append`: combine with an existing entry of the same
lowercased name using `", "`, else append at the end.  The name is
stored lowercased. -/
def headersCombine (hs : List (String × String)) (n v : String) : List (String × String) :=
  match hs with
  | [] => [(n, v)]
  | (k, w) :: rest =>
    if k == n then (k, w ++ ", " ++ v) :: rest
    else (k, w) :: headersCombine rest n v

/-- Append one raw header entry into a `Headers` object. -/
def headersAppend (hs : HeadersList) (name value : String) : HeadersList :=
  headersCombine hs (strLower name) value

/-- `Headers.delete`: drop every entry of the given (case-insensitive) name. -/
def headersDelete (hs : HeadersList) (name : String) : HeadersList :=
  hs.filter (fun p => p.1 != strLower name)

/-- `Headers.get` (case-insensitive). -/
def headersGet (hs : HeadersList) (name : String) : Option String :=
  hs.lookup (strLower name)

/-- The header set attached to every fetch of one `request` call: the
object literal fed through the `Headers` constructor, with the
content-type entry deleted when the body is `FormData`. -/
def buildHeaders (token : Option String) (callerHeaders : List (String × String))
    (isFormData : Bool) : HeadersList :=
  let hs := (headersRecord token callerHeaders).foldl (fun h p => headersAppend h p.1 p.2) []
  if isFormData then headersDelete hs "Content-Type" else hs

/-- One `request` call observed together with the headers each attempt
sends.  `tokenAt n` is the storage content when attempt `n` starts; the
source reads the token once, before attempt 0, and passes the one
`headers` object to every fetch, so every attempt sends the headers
computed from `tokenAt 0`. -/
structure RequestExec where
  trace : RunTrace
  sentHeaders : List HeadersList

/-- `request` from `api.ts` including its header construction: the token
is read from storage once (at call start, `tokenAt 0`), the headers are
built once, and the same `headers` object is passed to the fetch of every
attempt of the retry loop. -/
def requestFull (tokenAt : Nat → Option String) (callerHeaders : List (String × String))
    (isFormData : Bool) (outcomes : Nat → FetchOutcome)
    (retries : Nat := MAX_RETRIES) : RequestExec :=
  let hdrs := buildHeaders (tokenAt 0) callerHeaders isFormData
  let t := loopGo outcomes 0 retries
  ⟨t, List.replicate t.attempts hdrs⟩

example :
    headersGet (buildHeaders (some "T") [] false) "Authorization" = some "Bearer T" := by rfl

example :
    headersGet (buildHeaders none [] false) "Authorization" = none := by rfl

example :
    headersGet (buildHeaders (some "T") [("Authorization", "Basic x")] false) "Authorization"
      = some "Basic x" := by rfl

/-! ## Session controller (`useAuth.ts` and `lib/auth.ts`)

The single-threaded event-loop model: the only suspension point that
matters to the claims is the profile-fetch round trip inside
`getCurrentUser`; the tasks that run during that window are passed as a
`World → World` function applied at the suspension point. -/

/-- A user profile (`User` from the types module; the optional fields do
not participate in any claim). -/
structure User where
  id : String
  username : String
  email : String
  full_name : String
  followers_count : Nat
  following_count : Nat
  photos_count : Nat
  created_at : String
deriving Repr, DecidableEq

/-- `AuthState` from `useAuth.ts`. -/
structure AuthState where
  user : Option User
  loading : Bool
  error : Option String
  isAuthenticated : Bool
deriving Repr, DecidableEq

/-- The world a session operation acts on: the persistent `token` slot of
`localStorage` and the hook's in-memory state. -/
structure World where
  token : Option String
  session : AuthState
deriving Repr, DecidableEq

/-- `getCurrentUser` from `lib/auth.ts`: return `null` without a network
round trip when no (truthy) token is stored; otherwise fetch the profile
(`profileResult` abstracts the `api.user.getProfile()` round trip, and
`during` is whatever other tasks run while it is in flight) and swallow
any failure into `null`. -/
def getCurrentUserRun (profileResult : Except JsError User) (during : World → World)
    (w : World) : World × Option User :=
  if jsTokenTruthy w.token then
    let w2 := during w
    match profileResult with
    | Except.ok u => (w2, some u)
    | Except.error _ => (w2, none)
  else
    (w, none)

/-- `checkAuth` from `useAuth.ts`: set `loading` and clear `error`; with
no token stored go straight to the anonymous state; otherwise run
`getCurrentUser` and unconditionally install its result
(`user: currentUser, isAuthenticated: !!currentUser, loading: false`).
`getCurrentUser` never throws, so the `catch` that would set `error` is
unreachable on this path. -/
def checkAuth (profileResult : Except JsError User) (during : World → World)
    (w : World) : World :=
  let w1 : World := { w with session := { w.session with loading := true, error := none } }
  if jsTokenTruthy w1.token then
    let r := getCurrentUserRun profileResult during w1
    { r.1 with session :=
        { r.1.session with user := r.2, isAuthenticated := r.2.isSome, loading := false } }
  else
    { w1 with session :=
        { w1.session with user := none, isAuthenticated := false, loading := false } }

/-- `logout` from `useAuth.ts` composed with `authUtils.logout`: set
`loading`, clear the stored token, and install the anonymous state. -/
def logoutRun (w : World) : World :=
  let w1 : World := { w with session := { w.session with loading := true, error := none } }
  let w2 : World := { w1 with token := none }
  { w2 with session :=
      { w2.session with user := none, isAuthenticated := false, loading := false } }

/-! ## Lemmas about the retry loop -/

/-- A retryable failure is an `Except.error` whose content is not the
network-level `TypeError`. -/
theorem retryableFail_error {x : Except JsError ApiResponse}
    (h : retryableFail x = true) :
    ∃ e, x = Except.error e ∧ isNetworkTypeError e = false := by
  cases x with
  | ok r => simp [retryableFail] at h
  | error e =>
    refine ⟨e, rfl, ?_⟩
    simpa [retryableFail] using h

/-- Unrolling `n` retryable failing attempts of the `request` loop: the
trace consists of the `n` backoff delays followed by whatever the loop
does from attempt `attempt + n` on. -/
theorem loopGo_skip (outcomes : Nat → FetchOutcome) :
    ∀ (n attempt left : Nat), n ≤ left →
    (∀ i, i < n → retryableFail (attemptResult (outcomes (attempt + i))) = true) →
    loopGo outcomes attempt left =
      ⟨(loopGo outcomes (attempt + n) (left - n)).result,
       (loopGo outcomes (attempt + n) (left - n)).attempts + n,
       ((List.range n).map (fun i => RETRY_DELAY * (attempt + i + 1))) ++
         (loopGo outcomes (attempt + n) (left - n)).delays⟩ := by
  intro n
  induction n with
  | zero =>
    intro attempt left _ _
    simp
  | succ n ih =>
    intro attempt left h hfail
    obtain ⟨left', rfl⟩ : ∃ l, left = l + 1 := ⟨left - 1, by omega⟩
    have h0 := hfail 0 (Nat.succ_pos n)
    rw [Nat.add_zero] at h0
    obtain ⟨e, he, hnet⟩ := retryableFail_error h0
    have hrec := ih (attempt + 1) left' (by omega)
      (fun i hi => by
        have := hfail (i + 1) (by omega)
        rwa [show attempt + (i + 1) = attempt + 1 + i by omega] at this)
    rw [loopGo, he]
    simp only [hnet, Bool.false_eq_true, if_false]
    rw [hrec]
    have harith1 : attempt + 1 + n = attempt + (n + 1) := by omega
    have harith2 : left' - n = left' + 1 - (n + 1) := by omega
    rw [harith1, harith2]
    dsimp only
    refine congrArg₂ (RunTrace.mk _) (by omega) ?_
    rw [List.range_succ_eq_map, List.map_cons, List.map_map, List.cons_append]
    refine congrArg₂ List.cons (by congr 1) (congrArg₂ List.append ?_ rfl)
    refine List.map_congr_left (fun i _ => ?_)
    simp only [Function.comp]
    congr 1
    omega

/-- A full run in which every attempt fails retryably: `retries + 1`
attempts, the full backoff schedule, and the last attempt's failure. -/
theorem loopGo_allFail (outcomes : Nat → FetchOutcome) (retries : Nat)
    (hfail : ∀ i, i ≤ retries → retryableFail (attemptResult (outcomes i)) = true) :
    loopGo outcomes 0 retries =
      ⟨attemptResult (outcomes retries), retries + 1,
       (List.range retries).map (fun i => RETRY_DELAY * (i + 1))⟩ := by
  have hskip := loopGo_skip outcomes retries 0 retries (Nat.le_refl _)
    (fun i hi => by simpa using hfail i (Nat.le_of_lt hi))
  rw [Nat.zero_add, Nat.sub_self] at hskip
  obtain ⟨e, he, hnet⟩ := retryableFail_error (hfail retries (Nat.le_refl _))
  have hlast : loopGo outcomes retries 0 = ⟨attemptResult (outcomes retries), 1, []⟩ := by
    rw [loopGo, he]
    simp [hnet]
  rw [hskip, hlast]
  simp [Nat.add_comm]

/-- A run that reaches a network-level fetch failure at attempt `n` after
`n` retryable failures: the loop stops there with the substituted
network error. -/
theorem loopGo_networkStop (outcomes : Nat → FetchOutcome) (retries n : Nat)
    (hn : n ≤ retries)
    (hfail : ∀ i, i < n → retryableFail (attemptResult (outcomes i)) = true)
    (hnet : outcomes n = FetchOutcome.networkFailure) :
    loopGo outcomes 0 retries =
      ⟨Except.error networkSurfacedError, n + 1,
       (List.range n).map (fun i => RETRY_DELAY * (i + 1))⟩ := by
  have hskip := loopGo_skip outcomes n 0 retries hn
    (fun i hi => by simpa using hfail i hi)
  rw [Nat.zero_add] at hskip
  have hstop : loopGo outcomes n (retries - n) =
      ⟨Except.error networkSurfacedError, 1, []⟩ := by
    rw [loopGo, hnet]
    rfl
  rw [hskip, hstop]
  simp [Nat.add_comm]

/-! ## C1 -/

/-- A first attempt that fails at network level, with a succeeding
response available from the second attempt on. -/
def c1Outcomes : Nat → FetchOutcome :=
  fun i =>
    if i = 0 then FetchOutcome.networkFailure
    else FetchOutcome.success ⟨200, Except.ok (Json.obj [])⟩

/-- C1 counterexample: the first attempt fails at network level while the
next attempt would succeed; the claim predicts the failure enters the
retry accounting and is retried, but `request` performs exactly one
attempt, waits no backoff delay, and rejects at once with the substituted
network error. -/
theorem network_failure_not_retried_counterexample :
    (request c1Outcomes MAX_RETRIES).attempts = 1 ∧
    (request c1Outcomes MAX_RETRIES).delays = [] ∧
    (request c1Outcomes MAX_RETRIES).result = Except.error networkSurfacedError ∧
    attemptResult (c1Outcomes 1) = Except.ok ⟨Json.obj [], 200, none⟩ ∧
    MAX_RETRIES = 3 :=
  ⟨rfl, rfl, rfl, rfl, rfl⟩

/-- C1 (amended): a network-level fetch failure at any attempt aborts the
retry loop immediately — no further attempt and no further backoff delay
is performed, whatever retry budget remains — and the call rejects with
the distinguishable substituted message
`Network error: Please check your internet connection`. -/
theorem network_failure_aborts_retry_loop (outcomes : Nat → FetchOutcome)
    (retries n : Nat) (hn : n ≤ retries)
    (hfail : ∀ i, i < n → retryableFail (attemptResult (outcomes i)) = true)
    (hnet : outcomes n = FetchOutcome.networkFailure) :
    request outcomes retries =
      ⟨Except.error networkSurfacedError, n + 1,
       (List.range n).map (fun i => 1000 * (i + 1))⟩ := by
  have := loopGo_networkStop outcomes retries n hn hfail hnet
  rw [request, this]
  rfl

/-- A timed-out first attempt followed by a network-level failure. -/
def c1WitnessOutcomes : Nat → FetchOutcome :=
  fun i => if i = 0 then FetchOutcome.timeout else FetchOutcome.networkFailure

/-- Witness for the amended C1 theorem at a concrete input. -/
theorem network_failure_aborts_retry_loop_witness :
    (1 ≤ 3) ∧
    (∀ i, i < 1 → retryableFail (attemptResult (c1WitnessOutcomes i)) = true) ∧
    c1WitnessOutcomes 1 = FetchOutcome.networkFailure ∧
    request c1WitnessOutcomes 3 =
      ⟨Except.error networkSurfacedError, 2, [1000]⟩ := by
  refine ⟨by decide, ?_, rfl, ?_⟩
  · intro i hi
    have : i = 0 := by omega
    subst this
    rfl
  · exact network_failure_aborts_retry_loop c1WitnessOutcomes 3 1 (by decide)
      (fun i hi => by
        have : i = 0 := by omega
        subst this
        rfl) rfl

/-! ## C2 -/

/-- A 400 response carrying a Django-style field validation payload. -/
def validationResponse : Response :=
  ⟨400, Except.ok (Json.obj [("email", Json.arr [Json.str "This field is required."])])⟩

/-- A validation failure on the first attempt, a success on the second. -/
def c2Outcomes : Nat → FetchOutcome :=
  fun i =>
    if i = 0 then FetchOutcome.success validationResponse
    else FetchOutcome.success ⟨200, Except.ok (Json.obj [])⟩

/-- C2 counterexample: the first attempt receives a 4xx validation
response; the claim predicts the failure propagates with no further
attempt and no backoff, but `request` waits 1000 ms, performs a second
attempt, and even returns that attempt's success. -/
theorem http_error_retried_counterexample :
    responseOk validationResponse.status = false ∧
    retryableFail (attemptResult (c2Outcomes 0)) = true ∧
    (request c2Outcomes MAX_RETRIES).attempts = 2 ∧
    (request c2Outcomes MAX_RETRIES).delays = [1000] ∧
    (request c2Outcomes MAX_RETRIES).result = Except.ok ⟨Json.obj [], 200, none⟩ :=
  ⟨rfl, rfl, rfl, rfl, rfl⟩

/-- C2 (amended): a non-2xx response is retried exactly like a transient
failure.  When every attempt receives the same non-2xx response, the
pipeline performs the full `retries + 1` attempts with the linear backoff
schedule and only then rejects with the normalized failure. -/
theorem http_error_goes_through_retry_accounting (r : Response) (retries : Nat)
    (e : JsError) (_hok : responseOk r.status = false)
    (hfail : handleResponse r = Except.error e)
    (hnet : isNetworkTypeError e = false) :
    request (fun _ => FetchOutcome.success r) retries =
      ⟨Except.error e, retries + 1,
       (List.range retries).map (fun i => 1000 * (i + 1))⟩ := by
  have hall := loopGo_allFail (fun _ => FetchOutcome.success r) retries
    (fun i _ => by simp [retryableFail, attemptResult, hfail, hnet])
  rw [request, hall]
  simp only [attemptResult, hfail]
  rfl

/-- Witness for the amended C2 theorem at a concrete input. -/
theorem http_error_goes_through_retry_accounting_witness :
    responseOk validationResponse.status = false ∧
    handleResponse validationResponse =
      Except.error (JsError.error "\x7b\"email\":[\"This field is required.\"]\x7d") ∧
    isNetworkTypeError (JsError.error "\x7b\"email\":[\"This field is required.\"]\x7d") = false ∧
    request (fun _ => FetchOutcome.success validationResponse) 2 =
      ⟨Except.error (JsError.error "\x7b\"email\":[\"This field is required.\"]\x7d"), 3,
       [1000, 2000]⟩ := by
  refine ⟨rfl, rfl, rfl, ?_⟩
  have := http_error_goes_through_retry_accounting validationResponse 2
    (JsError.error "\x7b\"email\":[\"This field is required.\"]\x7d") rfl rfl rfl
  rw [this]
  rfl

/-! ## C3 -/

/-- C3: when the first `N - 1` attempts fail with retryable failures and
attempt `N` succeeds, with `N - 1` below the retry budget, `request`
returns the success, performs exactly `N` attempts, and waits
`1000, 2000, ..., (N-1)*1000` ms between consecutive attempts; the
default retry budget is `MAX_RETRIES = 3`. -/
theorem request_retries_then_succeeds (outcomes : Nat → FetchOutcome)
    (retries N : Nat) (resp : ApiResponse) (hN : 0 < N) (hlt : N - 1 < retries)
    (hfail : ∀ i, i < N - 1 → retryableFail (attemptResult (outcomes i)) = true)
    (hsucc : attemptResult (outcomes (N - 1)) = Except.ok resp) :
    request outcomes retries =
      ⟨Except.ok resp, N, (List.range (N - 1)).map (fun i => 1000 * (i + 1))⟩ ∧
    MAX_RETRIES = 3 := by
  refine ⟨?_, rfl⟩
  have hskip := loopGo_skip outcomes (N - 1) 0 retries (Nat.le_of_lt hlt)
    (fun i hi => by simpa using hfail i hi)
  rw [Nat.zero_add] at hskip
  have hstop : loopGo outcomes (N - 1) (retries - (N - 1)) = ⟨Except.ok resp, 1, []⟩ := by
    rw [loopGo, hsucc]
  rw [request, hskip, hstop]
  dsimp only
  refine congrArg₂ (RunTrace.mk _) (by omega) ?_
  simp only [List.append_nil]
  refine List.map_congr_left (fun i _ => ?_)
  congr 1
  omega

/-- A timed-out first attempt, then a success. -/
def c3Outcomes : Nat → FetchOutcome :=
  fun i =>
    if i = 0 then FetchOutcome.timeout
    else FetchOutcome.success ⟨200, Except.ok (Json.obj [("ok", Json.bool true)])⟩

/-- Witness for the C3 theorem at a concrete input (`N = 2`). -/
theorem request_retries_then_succeeds_witness :
    0 < 2 ∧ 2 - 1 < 3 ∧
    (∀ i, i < 2 - 1 → retryableFail (attemptResult (c3Outcomes i)) = true) ∧
    attemptResult (c3Outcomes (2 - 1)) =
      Except.ok ⟨Json.obj [("ok", Json.bool true)], 200, none⟩ ∧
    request c3Outcomes 3 =
      ⟨Except.ok ⟨Json.obj [("ok", Json.bool true)], 200, none⟩, 2, [1000]⟩ := by
  refine ⟨by decide, by decide, ?_, rfl, ?_⟩
  · intro i hi
    have : i = 0 := by omega
    subst this
    rfl
  · have := request_retries_then_succeeds c3Outcomes 3 2
      ⟨Json.obj [("ok", Json.bool true)], 200, none⟩ (by decide) (by decide)
      (fun i hi => by
        have : i = 0 := by omega
        subst this
        rfl) rfl
    rw [this.1]
    rfl

/-! ## C4 -/

/-- C4 counterexample: an execution in which every attempt performed
fails (the single attempt fails at network level).  The claim predicts
`MAX_RETRIES + 1 = 4` attempts and rejection with the observed failure,
but `request` performs one attempt and rejects with a substituted error,
not the `TypeError('Failed to fetch')` it observed. -/
theorem all_attempts_fail_counterexample :
    retryableFail (attemptResult FetchOutcome.networkFailure) = false ∧
    attemptResult FetchOutcome.networkFailure =
      Except.error (JsError.typeError "Failed to fetch") ∧
    (request (fun _ => FetchOutcome.networkFailure) MAX_RETRIES).attempts = 1 ∧
    (request (fun _ => FetchOutcome.networkFailure) MAX_RETRIES).attempts ≠ MAX_RETRIES + 1 ∧
    (request (fun _ => FetchOutcome.networkFailure) MAX_RETRIES).result =
      Except.error networkSurfacedError :=
  ⟨rfl, rfl, rfl, by decide, rfl⟩

/-- C4 (amended): when every attempt fails with a retryable (non
network-level) failure, `request` performs exactly `retries + 1` attempts
and rejects with the failure observed on the last attempt. -/
theorem request_exhausts_retries (outcomes : Nat → FetchOutcome) (retries : Nat)
    (hfail : ∀ i, i ≤ retries → retryableFail (attemptResult (outcomes i)) = true) :
    request outcomes retries =
      ⟨attemptResult (outcomes retries), retries + 1,
       (List.range retries).map (fun i => 1000 * (i + 1))⟩ := by
  have := loopGo_allFail outcomes retries hfail
  rw [request, this]
  rfl

/-- Witness for the amended C4 theorem at a concrete input: all attempts
time out under the default budget. -/
theorem request_exhausts_retries_witness :
    (∀ i, i ≤ MAX_RETRIES →
      retryableFail (attemptResult ((fun _ => FetchOutcome.timeout) i)) = true) ∧
    request (fun _ => FetchOutcome.timeout) MAX_RETRIES =
      ⟨Except.error JsError.abortError, 4, [1000, 2000, 3000]⟩ := by
  refine ⟨fun i _ => rfl, ?_⟩
  have := request_exhausts_retries (fun _ => FetchOutcome.timeout) MAX_RETRIES
    (fun i _ => rfl)
  rw [this]
  rfl

/-! ## C5 -/

/-- The structural shape of a surfaced failure: which JavaScript
exception constructor carries it, with the message strings forgotten.
Distinguishing failures "without parsing a message string" means
distinguishing them through this projection. -/
inductive ErrShape where
  | typeErrorShape : ErrShape
  | errorShape : ErrShape
  | abortShape : ErrShape
  | parseShape : ErrShape
deriving Repr, DecidableEq

/-- Forget the message of a surfaced failure, keeping its structure. -/
def errShape : JsError → ErrShape
  | JsError.typeError _ => ErrShape.typeErrorShape
  | JsError.error _ => ErrShape.errorShape
  | JsError.abortError => ErrShape.abortShape
  | JsError.parseError _ => ErrShape.parseShape

/-- C5 counterexample: a 4xx validation response and a plain 5xx API
failure both surface as a plain `Error` carrying only a message string —
the validation payload is `JSON.stringify`-ed into the message, no HTTP
status is attached, and the two failures have identical structure, so the
caller cannot tell them apart without parsing the message. -/
theorem failure_taxonomy_counterexample :
    handleResponse validationResponse =
      Except.error (JsError.error "\x7b\"email\":[\"This field is required.\"]\x7d") ∧
    handleResponse ⟨500, Except.ok (Json.obj [])⟩ =
      Except.error (JsError.error "An error occurred") ∧
    errShape (JsError.error "\x7b\"email\":[\"This field is required.\"]\x7d") =
      errShape (JsError.error "An error occurred") :=
  ⟨rfl, rfl, rfl⟩

/-- C5 (amended): failures surface as plain JavaScript exception values.
A non-2xx response with a non-empty JSON object body rejects with
`Error(JSON.stringify(body))`; other non-2xx object bodies reject with
`Error` carrying a message defaulting to `An error occurred` and no
status; a network failure rejects with an `Error` carrying a fixed
message; a timeout rejects with an `AbortError`.  Only the timeout is
structurally distinguishable: validation, API and network failures share
the plain-`Error` shape and require message parsing. -/
theorem failures_surface_as_plain_errors (fields : List (String × Json)) (s : Nat)
    (hne : fields ≠ []) (hs : responseOk s = false) :
    handleResponse ⟨s, Except.ok (Json.obj fields)⟩ =
      Except.error (JsError.error (jsonStringify (Json.obj fields))) ∧
    handleResponse ⟨s, Except.ok (Json.obj [])⟩ =
      Except.error (JsError.error "An error occurred") ∧
    errShape (JsError.error (jsonStringify (Json.obj fields))) =
      errShape (JsError.error "An error occurred") ∧
    attemptResult FetchOutcome.timeout = Except.error JsError.abortError ∧
    errShape networkSurfacedError = errShape (JsError.error "An error occurred") ∧
    errShape JsError.abortError ≠ errShape (JsError.error "An error occurred") := by
  refine ⟨?_, ?_, rfl, rfl, rfl, by decide⟩
  · have hlen : fields.length ≠ 0 := fun h => hne (List.length_eq_zero.mp h)
    simp [handleResponse, hs, truthy, objectKeysLength, hlen]
  · simp [handleResponse, hs, truthy, objectKeysLength, jsGet, jsOrDefaultMessage]

/-- Witness for the amended C5 theorem at a concrete input. -/
theorem failures_surface_as_plain_errors_witness :
    ([("email", Json.arr [Json.str "This field is required."])] ≠
      ([] : List (String × Json))) ∧
    responseOk 400 = false ∧
    handleResponse ⟨400, Except.ok
        (Json.obj [("email", Json.arr [Json.str "This field is required."])])⟩ =
      Except.error (JsError.error "\x7b\"email\":[\"This field is required.\"]\x7d") := by
  refine ⟨List.cons_ne_nil _ _, rfl, ?_⟩
  exact (failures_surface_as_plain_errors
    [("email", Json.arr [Json.str "This field is required."])] 400
    (List.cons_ne_nil _ _) rfl).1

/-! ## C9 -/

/-- C9: response normalization is not total.  For every status, a body
parsing to JSON `null` makes `handleResponse` throw the raw `TypeError`
from reading `.message` of `null` instead of returning a success or a
normalized failure, and a 2xx response with a `null` body is treated as
a failed attempt: under the default budget it is retried like any other
failure and the call finally rejects with that `TypeError`. -/
theorem null_body_not_normalized (s : Nat) :
    handleResponse ⟨s, Except.ok Json.null⟩ =
      Except.error (JsError.typeError "Cannot read properties of null") ∧
    (request (fun _ => FetchOutcome.success ⟨200, Except.ok Json.null⟩)).attempts =
      MAX_RETRIES + 1 ∧
    (request (fun _ => FetchOutcome.success ⟨200, Except.ok Json.null⟩)).result =
      Except.error (JsError.typeError "Cannot read properties of null") := by
  refine ⟨?_, rfl, rfl⟩
  cases h : responseOk s <;> simp [handleResponse, h, truthy, jsGet]

/-! ## Lemmas about header construction -/

/-- `headersCombine` on a different key leaves a lookup unchanged. -/
theorem lookup_headersCombine_ne (hs : List (String × String)) (m n v : String)
    (h : n ≠ m) : (headersCombine hs m v).lookup n = hs.lookup n := by
  induction hs with
  | nil =>
    have hnm : (n == m) = false := by simp [h]
    simp [headersCombine, List.lookup, hnm]
  | cons p rest ih =>
    obtain ⟨k, w⟩ := p
    by_cases hk : k = m
    · subst hk
      have hnk : (n == k) = false := by simp [h]
      simp [headersCombine, List.lookup, hnk]
    · have hkm : (k == m) = false := by simp [hk]
      by_cases hnk : n = k
      · subst hnk
        simp [headersCombine, hkm, List.lookup]
      · have hnk' : (n == k) = false := by simp [hnk]
        simp [headersCombine, hkm, List.lookup, hnk', ih]

/-- `headersCombine` on the looked-up key: the value is set, combined
with `", "` when an entry already exists. -/
theorem lookup_headersCombine_eq (hs : List (String × String)) (n v : String) :
    (headersCombine hs n v).lookup n =
      some ((hs.lookup n).elim v (fun w => w ++ ", " ++ v)) := by
  induction hs with
  | nil =>
    simp [headersCombine, List.lookup]
  | cons p rest ih =>
    obtain ⟨k, w⟩ := p
    by_cases hk : k = n
    · subst hk
      simp [headersCombine, List.lookup]
    · have hkn : (k == n) = false := by simp [hk]
      have hnk : (n == k) = false := by simp [Ne.symm hk]
      simp [headersCombine, hkn, List.lookup, hnk, ih]

/-- Folding `headersAppend` over entries none of which has the looked-up
(lowercased) name leaves the lookup unchanged. -/
theorem lookup_foldl_headersAppend_ne (r : List (String × String)) (n : String)
    (hn : ∀ p ∈ r, strLower p.1 ≠ n) :
    ∀ hs : HeadersList,
      ((r.foldl (fun h p => headersAppend h p.1 p.2) hs).lookup n : Option String) =
        hs.lookup n := by
  induction r with
  | nil => intro hs; rfl
  | cons p rest ih =>
    intro hs
    rw [List.foldl_cons]
    rw [ih (fun q hq => hn q (List.mem_cons_of_mem _ hq))]
    exact lookup_headersCombine_ne hs (strLower p.1) n p.2
      (Ne.symm (hn p (List.mem_cons_self _ _)))

/-- `headersDelete` of another name leaves a lookup unchanged. -/
theorem lookup_headersDelete_ne (hs : HeadersList) (n m : String)
    (h : n ≠ strLower m) :
    ((headersDelete hs m).lookup n : Option String) = hs.lookup n := by
  induction hs with
  | nil => rfl
  | cons p rest ih =>
    obtain ⟨k, w⟩ := p
    by_cases hk : k = strLower m
    · have hnk : (n == k) = false := by rw [hk]; simp [h]
      have hkm : (k != strLower m) = false := by simp [hk]
      simp only [headersDelete] at ih ⊢
      simp [List.filter, hkm, List.lookup, hnk, ih]
    · have hkm : (k != strLower m) = true := by simp [hk]
      by_cases hnk : n = k
      · subst hnk
        simp [headersDelete, List.filter, hkm, List.lookup]
      · have hnk' : (n == k) = false := by simp [hnk]
        simp only [headersDelete] at ih ⊢
        simp [List.filter, hkm, List.lookup, hnk', ih]

/-- Every entry of `recUpsert r k v` is an entry of `r` or carries key `k`. -/
theorem mem_recUpsert (r : List (String × String)) (k v : String)
    (q : String × String) (hq : q ∈ recUpsert r k v) : q ∈ r ∨ q.1 = k := by
  unfold recUpsert at hq
  split at hq
  · obtain ⟨p, hp, hfq⟩ := List.mem_map.mp hq
    by_cases hpk : p.1 == k
    · right
      rw [← hfq]
      simp [hpk]
    · left
      rw [← hfq]
      simpa [hpk] using hp
  · rcases List.mem_append.mp hq with h | h
    · exact Or.inl h
    · right
      simp at h
      rw [h]

/-- Folding `recUpsert` over caller entries whose names do not lowercase
to `n` preserves "no entry's name lowercases to `n`". -/
theorem noAuth_foldl_recUpsert (n : String) (ch : List (String × String))
    (hch : ∀ p ∈ ch, strLower p.1 ≠ n) :
    ∀ r : List (String × String), (∀ p ∈ r, strLower p.1 ≠ n) →
      ∀ q ∈ ch.foldl (fun r p => recUpsert r p.1 p.2) r, strLower q.1 ≠ n := by
  induction ch with
  | nil => intro r hr q hq; exact hr q hq
  | cons p rest ih =>
    intro r hr q hq
    rw [List.foldl_cons] at hq
    refine ih (fun s hs => hch s (List.mem_cons_of_mem _ hs)) _ ?_ q hq
    intro s hs
    rcases mem_recUpsert r p.1 p.2 s hs with h | h
    · exact hr s h
    · rw [h]
      exact hch p (List.mem_cons_self _ _)

/-- The record of one `request` call holds exactly one entry whose name
lowercases to `authorization`, namely `("Authorization", "Bearer " ++ t)`,
with only other-named entries around it. -/
def AuthInv (t : String) (r : List (String × String)) : Prop :=
  ∃ r1 r2, r = r1 ++ ("Authorization", "Bearer " ++ t) :: r2 ∧
    (∀ p ∈ r1, strLower p.1 ≠ "authorization") ∧
    (∀ p ∈ r2, strLower p.1 ≠ "authorization")

/-- `recUpsert` with a non-authorization key preserves `AuthInv`. -/
theorem authInv_recUpsert (t : String) (r : List (String × String)) (k v : String)
    (hk : strLower k ≠ "authorization") (h : AuthInv t r) :
    AuthInv t (recUpsert r k v) := by
  obtain ⟨r1, r2, rfl, h1, h2⟩ := h
  have hkAuth : (("Authorization" : String) == k) = false := by
    rw [beq_eq_false_iff_ne]
    intro hc
    exact hk (by rw [← hc]; rfl)
  unfold recUpsert
  split
  · refine ⟨r1.map (fun p => if p.1 == k then (k, v) else p),
            r2.map (fun p => if p.1 == k then (k, v) else p), ?_, ?_, ?_⟩
    · rw [List.map_append, List.map_cons]
      simp [hkAuth]
    · intro p hp
      obtain ⟨q, hq, rfl⟩ := List.mem_map.mp hp
      by_cases hqk : q.1 == k
      · simpa [hqk] using hk
      · simpa [hqk] using h1 q hq
    · intro p hp
      obtain ⟨q, hq, rfl⟩ := List.mem_map.mp hp
      by_cases hqk : q.1 == k
      · simpa [hqk] using hk
      · simpa [hqk] using h2 q hq
  · refine ⟨r1, r2 ++ [(k, v)], by simp, h1, ?_⟩
    intro p hp
    rcases List.mem_append.mp hp with h | h
    · exact h2 p h
    · simp at h
      rw [h]
      exact hk

/-- Folding `recUpsert` over non-authorization caller entries preserves
`AuthInv`. -/
theorem authInv_foldl_recUpsert (t : String) (ch : List (String × String))
    (hch : ∀ p ∈ ch, strLower p.1 ≠ "authorization") :
    ∀ r, AuthInv t r → AuthInv t (ch.foldl (fun r p => recUpsert r p.1 p.2) r) := by
  induction ch with
  | nil => intro r h; exact h
  | cons p rest ih =>
    intro r h
    rw [List.foldl_cons]
    exact ih (fun q hq => hch q (List.mem_cons_of_mem _ hq)) _
      (authInv_recUpsert t r p.1 p.2 (hch p (List.mem_cons_self _ _)) h)

/-- Building the `Headers` object from a record satisfying `AuthInv`
yields `Bearer t` under the `authorization` name. -/
theorem lookup_foldl_record_auth (t : String) (r : List (String × String))
    (h : AuthInv t r) :
    ((r.foldl (fun h p => headersAppend h p.1 p.2) ([] : HeadersList)).lookup
        "authorization" : Option String) = some ("Bearer " ++ t) := by
  obtain ⟨r1, r2, rfl, h1, h2⟩ := h
  rw [List.foldl_append, List.foldl_cons]
  rw [lookup_foldl_headersAppend_ne r2 _ h2]
  have hA : ((r1.foldl (fun h p => headersAppend h p.1 p.2) ([] : HeadersList)).lookup
      "authorization" : Option String) = none := by
    rw [lookup_foldl_headersAppend_ne r1 _ h1]
    rfl
  show ((headersCombine _ (strLower "Authorization") _).lookup "authorization" :
    Option String) = _
  rw [show strLower "Authorization" = "authorization" from rfl]
  rw [lookup_headersCombine_eq, hA]
  rfl

/-! ## C8 -/

/-- C8 (amended): provided the caller supplies no Authorization header of
its own, the outgoing header set carries `Authorization: Bearer <token>`
exactly when a non-empty Credential is stored, and no Authorization
header otherwise.  A caller-supplied Authorization entry is spread after
the computed one in the header object literal and overrides it. -/
theorem bearer_header_attached (token : Option String) (ch : List (String × String))
    (fd : Bool) (hch : ∀ p ∈ ch, strLower p.1 ≠ "authorization") :
    headersGet (buildHeaders token ch fd) "Authorization" =
      (match token with
       | some t => if t = "" then none else some ("Bearer " ++ t)
       | none => none) := by
  have hget : ∀ hs : HeadersList,
      headersGet hs "Authorization" = hs.lookup "authorization" := fun _ => rfl
  have hdel : ∀ hs : HeadersList,
      ((headersDelete hs "Content-Type").lookup "authorization" : Option String) =
        hs.lookup "authorization" :=
    fun hs => lookup_headersDelete_ne hs _ _ (by decide)
  have hcore : (((headersRecord token ch).foldl
      (fun h p => headersAppend h p.1 p.2) ([] : HeadersList)).lookup
        "authorization" : Option String) =
      (match token with
       | some t => if t = "" then none else some ("Bearer " ++ t)
       | none => none) := by
    cases token with
    | none =>
      have hno : ∀ q ∈ headersRecord none ch, strLower q.1 ≠ "authorization" := by
        refine noAuth_foldl_recUpsert _ ch hch _ ?_
        intro p hp
        simp at hp
        rw [hp]
        decide
      rw [lookup_foldl_headersAppend_ne _ _ hno]
      rfl
    | some t =>
      by_cases ht : t = ""
      · subst ht
        have hno : ∀ q ∈ headersRecord (some "") ch, strLower q.1 ≠ "authorization" := by
          refine noAuth_foldl_recUpsert _ ch hch _ ?_
          intro p hp
          simp at hp
          rw [hp]
          decide
        rw [lookup_foldl_headersAppend_ne _ _ hno]
        rfl
      · have htb : (t != "") = true := by simp [ht]
        have hbase : AuthInv t (recUpsert [("Content-Type", "application/json")]
            "Authorization" ("Bearer " ++ t)) := by
          refine ⟨[("Content-Type", "application/json")], [], rfl, ?_, ?_⟩
          · intro p hp
            simp at hp
            rw [hp]
            decide
          · intro p hp
            simp at hp
        have hinv := authInv_foldl_recUpsert t ch hch _ hbase
        have hrec : headersRecord (some t) ch =
            ch.foldl (fun r p => recUpsert r p.1 p.2)
              (recUpsert [("Content-Type", "application/json")] "Authorization"
                ("Bearer " ++ t)) := by
          simp only [headersRecord, htb, if_true]
        rw [hrec, lookup_foldl_record_auth t _ hinv]
        simp [ht]
  rw [hget]
  cases fd
  · exact hcore
  · show ((headersDelete ((headersRecord token ch).foldl
        (fun h p => headersAppend h p.1 p.2) ([] : HeadersList))
          "Content-Type").lookup "authorization" : Option String) = _
    rw [hdel]
    exact hcore

/-- C8 counterexample: a Credential `T` is stored, but the caller's own
`Authorization: Basic x` entry is spread after the computed bearer entry
in the header object literal and overwrites it, so the outgoing request
does not carry `Bearer T`. -/
theorem bearer_header_counterexample :
    jsTokenTruthy (some "T") = true ∧
    headersGet (buildHeaders (some "T") [("Authorization", "Basic x")] false)
        "Authorization" = some "Basic x" ∧
    some "Basic x" ≠ some ("Bearer " ++ "T") :=
  ⟨rfl, rfl, by decide⟩

/-- Witness for the amended C8 theorem at concrete inputs. -/
theorem bearer_header_attached_witness :
    (∀ p ∈ ([("Accept", "text/html")] : List (String × String)),
      strLower p.1 ≠ "authorization") ∧
    headersGet (buildHeaders (some "T") [("Accept", "text/html")] false)
        "Authorization" = some ("Bearer " ++ "T") ∧
    headersGet (buildHeaders none [("Accept", "text/html")] false)
        "Authorization" = none := by
  have hch : ∀ p ∈ ([("Accept", "text/html")] : List (String × String)),
      strLower p.1 ≠ "authorization" := by
    intro p hp
    simp at hp
    rw [hp]
    decide
  exact ⟨hch, bearer_header_attached (some "T") [("Accept", "text/html")] false hch,
    bearer_header_attached none [("Accept", "text/html")] false hch⟩

/-! ## C10 -/

/-- C10: the Credential and the header set are computed once, before the
first attempt; every attempt of the call sends the headers computed from
the storage content at call start (`tokenAt 0`), whatever the storage
holds when later attempts run. -/
theorem headers_read_once (tokenAt : Nat → Option String)
    (ch : List (String × String)) (fd : Bool) (outcomes : Nat → FetchOutcome)
    (retries : Nat) :
    ∀ h ∈ (requestFull tokenAt ch fd outcomes retries).sentHeaders,
      h = buildHeaders (tokenAt 0) ch fd := by
  intro h hm
  simp only [requestFull] at hm
  exact List.eq_of_mem_replicate hm

/-- A storage stream whose token is cleared after the first attempt. -/
def c10TokenAt : Nat → Option String :=
  fun n => if n = 0 then some "A" else none

/-- A timed-out first attempt, then a success. -/
def c10Outcomes : Nat → FetchOutcome :=
  fun i =>
    if i = 0 then FetchOutcome.timeout
    else FetchOutcome.success ⟨200, Except.ok (Json.obj [])⟩

/-- Witness for the C10 theorem at a concrete input: the stored token is
cleared during the backoff wait, yet the retry attempt still sends the
headers computed at call start. -/
theorem headers_read_once_witness :
    c10TokenAt 1 ≠ c10TokenAt 0 ∧
    (requestFull c10TokenAt [] false c10Outcomes 3).trace.attempts = 2 ∧
    buildHeaders (some "A") [] false ∈
      (requestFull c10TokenAt [] false c10Outcomes 3).sentHeaders ∧
    buildHeaders (some "A") [] false = buildHeaders (c10TokenAt 0) [] false := by
  have hmem : buildHeaders (some "A") [] false ∈
      (requestFull c10TokenAt [] false c10Outcomes 3).sentHeaders := by
    have e : (requestFull c10TokenAt [] false c10Outcomes 3).sentHeaders =
        [buildHeaders (some "A") [] false, buildHeaders (some "A") [] false] := rfl
    rw [e]
    exact List.mem_cons_self _ _
  exact ⟨by decide, rfl, hmem,
    headers_read_once c10TokenAt [] false c10Outcomes 3 _ hmem⟩

/-! ## C6 -/

/-- The initial world for the C6 interleaving: a stored token and the
hook's initial state (`loading = true`). -/
def c6World : World :=
  ⟨some "T", ⟨none, true, none, false⟩⟩

/-- The profile the in-flight fetch eventually resolves with. -/
def c6User : User :=
  ⟨"u1", "alice", "a@b.com", "Alice", 0, 0, 0, "2024-01-01"⟩

/-- C6 failing execution: `checkAuth` starts while token `T` is stored
and passes its token checks; during the profile-fetch round trip,
`logout` runs to completion (clearing the token and installing the
anonymous state); the fetch then resolves with a profile and `checkAuth`
completes.  The code installs `isAuthenticated = true` with that profile
although no Credential is stored any more — the older in-flight check
clobbers the post-logout state instead of being ignored. -/
theorem stale_checkAuth_clobbers_logout :
    (checkAuth (Except.ok c6User) logoutRun c6World).session.isAuthenticated = true ∧
    (checkAuth (Except.ok c6User) logoutRun c6World).session.user = some c6User ∧
    (checkAuth (Except.ok c6User) logoutRun c6World).token = none ∧
    (logoutRun c6World).session.isAuthenticated = false ∧
    (logoutRun c6World).session.user = none :=
  ⟨rfl, rfl, rfl, rfl, rfl⟩

/-! ## C7 -/

/-- C7 counterexample: a token is stored, the profile fetch fails with no
other task interleaved, and the resulting state carries no error message
— `error` is `none`, where the claim requires a stored message. -/
theorem checkAuth_failure_no_error_counterexample :
    jsTokenTruthy (some "T") = true ∧
    (checkAuth (Except.error JsError.abortError) (fun w => w)
        ⟨some "T", ⟨none, false, none, false⟩⟩).session.error = none :=
  ⟨rfl, rfl⟩

/-- C7 (amended): when a Credential is stored and the profile fetch
fails, `checkAuth` ends in the anonymous state (user absent,
`isAuthenticated` false, `loading` false) and leaves the stored
Credential unchanged — but stores no error message: the `error` field is
reset to `none` when the check begins, and the fetch failure is
swallowed inside `getCurrentUser`, so the error-setting handler of
`checkAuth` never runs. -/
theorem checkAuth_fetch_failure_goes_anonymous (w : World) (e : JsError)
    (ht : jsTokenTruthy w.token = true) :
    (checkAuth (Except.error e) (fun x => x) w).session.user = none ∧
    (checkAuth (Except.error e) (fun x => x) w).session.isAuthenticated = false ∧
    (checkAuth (Except.error e) (fun x => x) w).session.loading = false ∧
    (checkAuth (Except.error e) (fun x => x) w).session.error = none ∧
    (checkAuth (Except.error e) (fun x => x) w).token = w.token := by
  simp [checkAuth, getCurrentUserRun, ht]

/-- Witness for the amended C7 theorem at a concrete input. -/
theorem checkAuth_fetch_failure_goes_anonymous_witness :
    jsTokenTruthy (⟨some "T", ⟨some c6User, false, none, true⟩⟩ : World).token = true ∧
    (checkAuth (Except.error JsError.abortError) (fun x => x)
        ⟨some "T", ⟨some c6User, false, none, true⟩⟩).session.isAuthenticated = false ∧
    (checkAuth (Except.error JsError.abortError) (fun x => x)
        ⟨some "T", ⟨some c6User, false, none, true⟩⟩).token = some "T" := by
  have h := checkAuth_fetch_failure_goes_anonymous
    ⟨some "T", ⟨some c6User, false, none, true⟩⟩ JsError.abortError rfl
  exact ⟨rfl, h.2.1, h.2.2.2.2⟩
